import Mathlib

/-!
Shallow embedding of dumb-init (src/dumb-init.c).

The program is a minimal PID-1 process supervisor.  Its core pieces, embedded
below, are: the signal rewrite and action tables together with the
configuration parser that fills them (`parse_rewrite_signum`, `parse_action`,
`parse_command`); signal translation and forwarding (`translate_signal`,
`forward_signal`, `do_action`); the SIGCHLD reaping loop and bereavement exit
policy (`reap_loop`, `handle_sigchld`, `handle_signal`); and the /proc
enumeration used by survive-bereaving mode (`process_count`).

Machine integers are modelled as `Int`/`Nat`; the two 65-entry C arrays are
modelled as total functions from `Nat`, written only at indices 0..64 just as
the C writes them.  Calls to `exit(n)` during parsing or in `do_action` are
modelled as `Except.error n`; the side effects of the signal handler (kill
syscalls, spawned action subprocesses, self-stop) are reified as a list of
`Effect` values.
-/

/-- MAXSIG from the source: the tables cover signals 1..64 (index 0 unused by
the translation logic). -/
def MAXSIG : Int := 64

/-- Signal number constants as on Linux, matching the C headers used. -/
def SIGTERM : Int := 15

/-- SIGCHLD on Linux. -/
def SIGCHLD : Int := 17

/-- SIGSTOP on Linux. -/
def SIGSTOP : Int := 19

/-- SIGTSTP on Linux. -/
def SIGTSTP : Int := 20

/-- SIGTTIN on Linux. -/
def SIGTTIN : Int := 21

/-- SIGTTOU on Linux. -/
def SIGTTOU : Int := 22

/-- Pointwise update of a table, modelling the C assignment `t[i] = v`. -/
def upd {α : Type} (t : Nat → α) (i : Nat) (v : α) : Nat → α :=
  fun j => if j = i then v else t j

/-- The global configuration variables of dumb-init: `signal_rewrite` and
`signal_action` (both indexed 0..MAXSIG), and the flag bytes.  `signal_rewrite`
slots hold -1 (unset), -2 (run the action command), or a replacement signal
number 0..64 where 0 is the "ignore" rewrite. -/
structure Globals where
  signal_rewrite : Nat → Int
  signal_action : Nat → String
  debug : Bool
  use_setsid : Bool
  survive_bereaving : Bool

/-- Initial values of the globals: every rewrite slot -1, every action slot the
empty string, `use_setsid` on, `survive_bereaving` off. -/
def initGlobals : Globals where
  signal_rewrite := fun _ => -1
  signal_action := fun _ => ""
  debug := false
  use_setsid := true
  survive_bereaving := false

/-- Supervisor runtime state: the global `child_pid` and the static `bereaved`
flag local to `handle_signal`. -/
structure SupState where
  child_pid : Int
  bereaved : Bool

deriving instance DecidableEq, Repr for SupState

/-- An observable side effect of the signal handler: a `kill(pid, signum)`
syscall, the fork/exec of an action subprocess for the given received signal,
or `kill(getpid(), SIGSTOP)` on a TTY stop signal. -/
inductive Effect where
  | kill (pid : Int) (signum : Int)
  | spawnAction (signum : Int)
  | stopSelf

deriving instance DecidableEq, Repr for Effect

/-- `translate_signal` from the source: signals outside 1..MAXSIG pass through
unchanged, otherwise the rewrite table applies unless the slot is unset. -/
def translate_signal (g : Globals) (signum : Int) : Int :=
  if signum ≤ 0 ∨ signum > MAXSIG then
    signum
  else
    let translated := g.signal_rewrite signum.toNat
    if translated = -1 then signum else translated

/-- `do_action` from the source: fork and run the configured command in the
child.  The local `child_pid` shadows the global, so the supervisor state is
untouched on the parent path; a failed fork makes the supervisor itself exit
with code 1 (`Except.error 1`). -/
def do_action (st : SupState) (fork_result : Int) : Except Nat SupState :=
  let child_pid := fork_result
  if child_pid < 0 then
    .error 1
  else
    .ok st

/-- `forward_signal` from the source, reified as the list of effects it
produces: translated value -2 spawns the action subprocess for the original
signal, any other value except -1 is delivered by `kill` to the child (or to
its whole process group, `-child_pid`, in setsid mode), and -1 produces
nothing. -/
def forward_signal (g : Globals) (child_pid : Int) (signum : Int) : List Effect :=
  let new_signum := translate_signal g signum
  if new_signum = -2 then
    [Effect.spawnAction signum]
  else if new_signum ≠ -1 then
    [Effect.kill (if g.use_setsid then -child_pid else child_pid) new_signum]
  else
    []

/-- Termination status of a reaped process, as reported by `waitpid`: a normal
exit carrying the status passed to `exit`, or death by a signal. -/
inductive ChildStatus where
  | exited (code : Nat)
  | signaled (sig : Nat)

deriving instance DecidableEq, Repr for ChildStatus

/-- The `exit_status` computed in the SIGCHLD branch of `handle_signal`:
`WEXITSTATUS` yields the low 8 bits of the exit status, and a signal death `K`
yields `128 + K`. -/
def wait_exit_status : ChildStatus → Nat
  | .exited code => code % 256
  | .signaled sig => 128 + sig

/-- The `waitpid` loop of the SIGCHLD branch, over the list of reapable
children.  It returns the updated state and, when the direct child was reaped
without `survive_bereaving`, the supervisor exit code together with the
effects of the final `forward_signal(SIGTERM)`. -/
def reap_loop (g : Globals) (st : SupState) :
    List (Int × ChildStatus) → SupState × Option (Nat × List Effect)
  | [] => (st, none)
  | (killed_pid, status) :: rest =>
    if killed_pid = st.child_pid then
      let st' : SupState := { st with bereaved := true }
      if g.survive_bereaving then
        reap_loop g st' rest
      else
        (st', some (wait_exit_status status, forward_signal g st'.child_pid SIGTERM))
    else
      reap_loop g st rest

/-- Result of one signal-handler step: either the supervisor exits with a code
(after emitting the listed effects), or it keeps running with updated state. -/
inductive HandlerStep where
  | exit (code : Nat) (effects : List Effect)
  | running (st : SupState) (effects : List Effect)

deriving instance DecidableEq, Repr for HandlerStep

/-- The SIGCHLD branch of `handle_signal`: drain the reapable children, then,
if bereaved and in survive-bereaving mode, exit 0 when the process count `pc`
(the result of `process_count`) is at most 1. -/
def handle_sigchld (g : Globals) (st : SupState)
    (reaped : List (Int × ChildStatus)) (pc : Int) : HandlerStep :=
  match reap_loop g st reaped with
  | (_, some (code, effects)) => .exit code effects
  | (st', none) =>
    if st'.bereaved && g.survive_bereaving then
      if pc ≤ 1 then .exit 0 [] else .running st' []
    else
      .running st' []

/-- `handle_signal` from the source.  The reapable children and the process
count are passed in explicitly, standing for the results of the `waitpid` loop
and of `process_count` in the SIGCHLD branch; every other signal is forwarded,
with a self-stop appended for the TTY job-control signals. -/
def handle_signal (g : Globals) (st : SupState) (signum : Int)
    (reaped : List (Int × ChildStatus)) (pc : Int) : HandlerStep :=
  if signum = SIGCHLD then
    handle_sigchld g st reaped pc
  else
    let effects := forward_signal g st.child_pid signum
    if signum = SIGTSTP ∨ signum = SIGTTOU ∨ signum = SIGTTIN then
      .running st (effects ++ [Effect.stopSelf])
    else
      .running st effects

/-- Projection: the exit code of a handler step, when it exits. -/
def stepCode : HandlerStep → Option Nat
  | .exit code _ => some code
  | .running _ _ => none

/-- Projection: the effects emitted by a handler step. -/
def stepEffects : HandlerStep → List Effect
  | .exit _ effects => effects
  | .running _ effects => effects

/-- The readdir loop of `process_count`: count directory entries whose names
are made only of digits, returning 2 as soon as the count exceeds 1. -/
def count_procs : Int → List String → Int
  | count, [] => count
  | count, name :: rest =>
    if name.all Char.isDigit then
      if count + 1 > 1 then 2
      else count_procs (count + 1) rest
    else
      count_procs count rest

/-- `process_count` from the source: `none` models an `opendir("/proc")`
failure, reported as -1; otherwise the digit-named entries are counted with
early exit at 2. -/
def process_count : Option (List String) → Int
  | none => -1
  | some entries => count_procs 0 entries

/-- A command-line option after `getopt`/`sscanf` scanning: the numeric
payloads of `-r`, the numeric and string payloads of `-a`, and the flag
options. -/
inductive Opt where
  | rewrite (signum replacement : Int)
  | action (signum : Int) (cmd : String)
  | singleChild
  | surviveBereaving
  | verbose

deriving instance DecidableEq, Repr for Opt

/-- `parse_rewrite_signum` from the source: both numbers must lie in
0..MAXSIG, signum 0 overwrites every slot of the rewrite table, any other
signum overwrites its own slot; out-of-range values exit 1 via
`print_rewrite_signum_help`. -/
def parse_rewrite_signum (g : Globals) (signum replacement : Int) :
    Except Nat Globals :=
  if (0 ≤ signum ∧ signum ≤ MAXSIG) ∧ (0 ≤ replacement ∧ replacement ≤ MAXSIG) then
    if signum = 0 then
      .ok { g with signal_rewrite := fun i => if i ≤ 64 then replacement else g.signal_rewrite i }
    else
      .ok { g with signal_rewrite := upd g.signal_rewrite signum.toNat replacement }
  else
    .error 1

/-- `parse_action` from the source: a scanned signum in 0..MAXSIG stores the
command string in the action table and -2 in the rewrite slot; otherwise the
process exits 1 via `print_action_help`. -/
def parse_action (g : Globals) (signum : Int) (cmd : String) :
    Except Nat Globals :=
  if 0 ≤ signum ∧ signum ≤ MAXSIG then
    .ok { g with
          signal_action := upd g.signal_action signum.toNat cmd,
          signal_rewrite := upd g.signal_rewrite signum.toNat (-2) }
  else
    .error 1

/-- One iteration of the `getopt_long` loop in `parse_command`. -/
def applyOpt (g : Globals) : Opt → Except Nat Globals
  | .rewrite signum replacement => parse_rewrite_signum g signum replacement
  | .action signum cmd => parse_action g signum cmd
  | .singleChild => .ok { g with use_setsid := false }
  | .surviveBereaving => .ok { g with survive_bereaving := true }
  | .verbose => .ok { g with debug := true }

/-- The whole `getopt_long` loop: options applied left to right, stopping with
the exit code of the first failing one. -/
def process_options (g : Globals) : List Opt → Except Nat Globals
  | [] => .ok g
  | o :: rest =>
    match applyOpt g o with
    | .ok g' => process_options g' rest
    | .error e => .error e

/-- `set_rewrite_to_sigstop_if_not_defined` from the source. -/
def set_rewrite_to_sigstop_if_not_defined (g : Globals) (signum : Int) : Globals :=
  if g.signal_rewrite signum.toNat = -1 then
    { g with signal_rewrite := upd g.signal_rewrite signum.toNat SIGSTOP }
  else
    g

/-- The environment lookups at the end of `parse_command`: `DUMB_INIT_DEBUG=1`
turns debugging on, `DUMB_INIT_SETSID=0` turns setsid mode off. -/
def applyEnv (g : Globals) (debug_env_is_1 setsid_env_is_0 : Bool) : Globals :=
  let g1 := if debug_env_is_1 then { g with debug := true } else g
  if setsid_env_is_0 then { g1 with use_setsid := false } else g1

/-- The derived defaults at the end of `parse_command`: in setsid mode the
still-unset rewrite slots of SIGTSTP, SIGTTOU, SIGTTIN become SIGSTOP. -/
def applyDefaults (g : Globals) : Globals :=
  if g.use_setsid then
    set_rewrite_to_sigstop_if_not_defined
      (set_rewrite_to_sigstop_if_not_defined
        (set_rewrite_to_sigstop_if_not_defined g SIGTSTP) SIGTTOU) SIGTTIN
  else
    g

/-- `parse_command` from the source, at the level of scanned options: run the
option loop, exit 1 when no command remains on the command line, then apply
the environment overrides and the SIGSTOP defaults. -/
def parse_command (opts : List Opt) (debug_env_is_1 setsid_env_is_0 : Bool)
    (has_command : Bool) : Except Nat Globals :=
  match process_options initGlobals opts with
  | .error e => .error e
  | .ok g =>
    if has_command then
      .ok (applyDefaults (applyEnv g debug_env_is_1 setsid_env_is_0))
    else
      .error 1

/-- The rewrite table described by the words of the round-trip law in the
spec: a table initialised with `R` in every slot, then overwritten at each `S`
with the corresponding `R'`, later pairs overriding earlier ones. -/
def specRewriteTable (R : Int) (singles : List (Int × Int)) : Nat → Int :=
  singles.foldl (fun t p => upd t p.1.toNat p.2) (fun _ => R)

/-- Bool-level check used when refuting the rewrite/action table invariant at
index 5: does slot 5 satisfy "rewrite is ACTION iff action is non-empty"? -/
def actionInvariantAt5 (g : Globals) : Bool :=
  (g.signal_rewrite 5 == -2) == (g.signal_action 5 != "")

/-- Bool-level side condition: an option is an action option only with a
non-empty command string. -/
def actionNonempty : Opt → Bool
  | .action _ cmd => !(cmd == "")
  | _ => true

/-- Fixture: a survive-bereaving configuration (the `-b` flag). -/
def c1g : Globals :=
  (process_options initGlobals [Opt.surviveBereaving]).toOption.getD initGlobals

/-- Fixture: supervisor state after the direct child (PID 42) has been
reaped. -/
def c1st : SupState := { child_pid := 42, bereaved := true }

/-- Claim C1 (code bug): the spec says an enumeration failure (`process_count`
returning -1) is treated as "still alive" and the supervisor does not exit,
but in the code the test `pc <= 1` is true for -1, so a bereaved
survive-bereaving supervisor handling a SIGCHLD/heartbeat whose enumeration
failed exits with code 0. -/
theorem c1_enumeration_failure_exits_zero :
    process_count none = -1 ∧
    handle_signal c1g c1st SIGCHLD [] (process_count none) = .exit 0 [] := by
  constructor
  · rfl
  · decide

/-- Fixture: configuration with signal 15 rewritten to 2 (`-r 15:2`). -/
def c2g : Globals :=
  (process_options initGlobals [Opt.rewrite 15 2]).toOption.getD initGlobals

/-- Fixture: running supervisor state with direct child PID 42. -/
def c2st : SupState := { child_pid := 42, bereaved := false }

/-- Claim C2 counterexample: with `-r 15:2` configured and survive-bereaving
off, reaping the direct child makes the supervisor deliver signal 2 — not
signal 15 — to the child's process group before exiting: the final SIGTERM
goes through `forward_signal` and hence through the rewrite table. -/
theorem c2_final_sigterm_is_rewritten_cex :
    c2g.survive_bereaving = false ∧
    handle_signal c2g c2st SIGCHLD [(42, ChildStatus.exited 7)] 0
      = .exit 7 [Effect.kill (-42) 2] ∧
    Effect.kill (-42) SIGTERM ∉
      stepEffects (handle_signal c2g c2st SIGCHLD [(42, ChildStatus.exited 7)] 0) := by
  refine ⟨rfl, by decide, by decide⟩

/-- Fixture: configuration with signal 10 rewritten to 0, the IGNORE rewrite
(`-r 10:0`). -/
def c4g : Globals :=
  (process_options initGlobals [Opt.rewrite 10 0]).toOption.getD initGlobals

/-- Claim C4 counterexample: with `rewrite[10] = 0` the handler does not drop
signal 10 silently; it issues a kill syscall with signal number 0 on the
child's process group (signal 0 delivers nothing, but a kill is issued). -/
theorem c4_ignore_issues_null_kill_cex :
    c4g.signal_rewrite 10 = 0 ∧
    forward_signal c4g 42 10 = [Effect.kill (-42) 0] ∧
    forward_signal c4g 42 10 ≠ [] := by
  refine ⟨by decide, by decide, by decide⟩

/-- Fixture: configuration parsed from `-a 5:x -r 5:9`: an action on signal 5
followed by a rewrite of signal 5. -/
def c7g : Globals :=
  (parse_command [Opt.action 5 "x", Opt.rewrite 5 9] false false true).toOption.getD
    initGlobals

/-- Claim C7 counterexample: after parsing `-a 5:x -r 5:9`, slot 5 of the
rewrite table holds 9 (not ACTION) while the action table holds the non-empty
string "x", so "rewrite[S] = ACTION iff action[S] non-empty" fails at S = 5. -/
theorem c7_action_invariant_cex :
    (parse_command [Opt.action 5 "x", Opt.rewrite 5 9] false false true).toOption.map
      actionInvariantAt5 = some false ∧
    c7g.signal_rewrite 5 = 9 ∧ c7g.signal_action 5 = "x" := by
  refine ⟨by decide, by decide, by decide⟩

/-- Claim C8 (code bug): `parse_action` accepts signal number 0, contrary to
the claim (and to the program's own `print_action_help`, which says the signum
is between 1 and 64): `-a 0:cmd` stores the command at index 0 with the
ACTION marker in the rewrite slot and parsing succeeds, while 65 is
rejected. -/
theorem c8_parse_action_accepts_zero :
    (parse_action initGlobals 0 "echo hi").toOption.map
      (fun g => (g.signal_rewrite 0, g.signal_action 0)) = some (-2, "echo hi") ∧
    parse_action initGlobals 65 "echo hi" = .error 1 := by
  refine ⟨by decide, by rfl⟩

/-- Reaping entries whose PID differs from the direct child leaves the loop
state unchanged. -/
theorem reap_loop_skip (g : Globals) (st : SupState)
    (rest : List (Int × ChildStatus)) :
    ∀ pre : List (Int × ChildStatus), (∀ q ∈ pre, q.1 ≠ st.child_pid) →
      reap_loop g st (pre ++ rest) = reap_loop g st rest := by
  intro pre
  induction pre with
  | nil => intro _; rfl
  | cons q pre ih =>
    intro h
    obtain ⟨pid, status⟩ := q
    have hne : pid ≠ st.child_pid := h (pid, status) (List.mem_cons_self _ _)
    simp only [List.cons_append, reap_loop, if_neg hne]
    exact ih fun q hq => h q (List.mem_cons_of_mem _ hq)

/-- Helper: when the direct child is among the reaped processes (after some
unrelated entries) and survive-bereaving is off, the SIGCHLD branch exits with
the child's computed status after forwarding SIGTERM through the rewrite
machinery. -/
theorem handle_signal_child_reaped (g : Globals) (st : SupState)
    (status : ChildStatus) (pre post : List (Int × ChildStatus)) (pc : Int)
    (hsb : g.survive_bereaving = false)
    (hpre : ∀ q ∈ pre, q.1 ≠ st.child_pid) :
    handle_signal g st SIGCHLD (pre ++ (st.child_pid, status) :: post) pc
      = .exit (wait_exit_status status) (forward_signal g st.child_pid SIGTERM) := by
  unfold handle_signal
  rw [if_pos rfl]
  unfold handle_sigchld
  rw [reap_loop_skip g st _ pre hpre]
  simp [reap_loop, hsb]

/-- Claim C2, amended: when the reaped PID equals the direct child and
survive-bereaving is off, the supervisor runs `forward_signal(SIGTERM)` — so
the delivered signal is SIGTERM translated through the rewrite table, not
necessarily 15 — and exits with the computed code. -/
theorem c2_bereaved_forwards_translated_sigterm (g : Globals) (st : SupState)
    (status : ChildStatus) (pre post : List (Int × ChildStatus)) (pc : Int)
    (hsb : g.survive_bereaving = false)
    (hpre : ∀ q ∈ pre, q.1 ≠ st.child_pid) :
    handle_signal g st SIGCHLD (pre ++ (st.child_pid, status) :: post) pc
      = .exit (wait_exit_status status) (forward_signal g st.child_pid SIGTERM) :=
  handle_signal_child_reaped g st status pre post pc hsb hpre

/-- Witness for the amended claim C2, at the default configuration (where
SIGTERM is not rewritten, so signal 15 itself goes to the group of child
42). -/
theorem c2_bereaved_forwards_translated_sigterm_witness :
    handle_signal initGlobals ⟨42, false⟩ SIGCHLD [((42 : Int), ChildStatus.exited 3)] 0
      = .exit 3 [Effect.kill (-42) 15] :=
  c2_bereaved_forwards_translated_sigterm initGlobals ⟨42, false⟩
    (ChildStatus.exited 3) [] [] 0 rfl (by simp)

/-- Claim C3: with survive-bereaving off, reaping the direct child makes the
supervisor exit with the low 8 bits of a normal exit status, and with 128+K
for death by signal K. -/
theorem c3_exit_code_propagation (g : Globals) (st : SupState)
    (pre post : List (Int × ChildStatus)) (E K : Nat) (pc : Int)
    (hsb : g.survive_bereaving = false)
    (hpre : ∀ q ∈ pre, q.1 ≠ st.child_pid) :
    stepCode (handle_signal g st SIGCHLD
        (pre ++ (st.child_pid, ChildStatus.exited E) :: post) pc) = some (E % 256) ∧
    stepCode (handle_signal g st SIGCHLD
        (pre ++ (st.child_pid, ChildStatus.signaled K) :: post) pc) = some (128 + K) := by
  constructor
  · rw [handle_signal_child_reaped g st _ pre post pc hsb hpre]; rfl
  · rw [handle_signal_child_reaped g st _ pre post pc hsb hpre]; rfl

/-- Witness for claim C3: a child exit status of 300 propagates as 300 mod 256
= 44, and death by signal 9 propagates as 137. -/
theorem c3_exit_code_propagation_witness :
    stepCode (handle_signal initGlobals ⟨42, false⟩ SIGCHLD
        [((42 : Int), ChildStatus.exited 300)] 0) = some 44 ∧
    stepCode (handle_signal initGlobals ⟨42, false⟩ SIGCHLD
        [((42 : Int), ChildStatus.signaled 9)] 0) = some 137 :=
  c3_exit_code_propagation initGlobals ⟨42, false⟩ [] [] 300 9 0 rfl (by simp)

/-- Claim C4, amended: for a signal S in 1..MAXSIG whose rewrite slot is 0
(IGNORE), the handler issues a kill with signal number 0 on the child or its
process group; signal 0 delivers no signal, so nothing is actually forwarded,
but a kill syscall is issued. -/
theorem c4_ignore_sends_signal_zero (g : Globals) (cp S : Int)
    (h1 : 1 ≤ S) (h2 : S ≤ MAXSIG) (h0 : g.signal_rewrite S.toNat = 0) :
    forward_signal g cp S = [Effect.kill (if g.use_setsid then -cp else cp) 0] := by
  unfold forward_signal translate_signal
  have hrange : ¬(S ≤ 0 ∨ S > MAXSIG) := by
    unfold MAXSIG at h2 ⊢
    omega
  rw [if_neg hrange]
  simp [h0]

/-- Witness for the amended claim C4: with `-r 10:0` a received signal 10
becomes a kill with signal 0 on the process group of child 42. -/
theorem c4_ignore_sends_signal_zero_witness :
    forward_signal c4g 42 10
      = [Effect.kill (if c4g.use_setsid then -(42 : Int) else 42) 0] :=
  c4_ignore_sends_signal_zero c4g 42 10 (by decide) (by decide) (by decide)

/-- Claim C10: if the fork inside `do_action` fails, the supervisor itself
exits with code 1 instead of continuing to supervise the child. -/
theorem c10_fork_failure_exits_one (st : SupState) (fork_result : Int)
    (hf : fork_result < 0) : do_action st fork_result = .error 1 := by
  simp [do_action, hf]

/-- Witness for claim C10 at fork result -1. -/
theorem c10_fork_failure_exits_one_witness :
    do_action ⟨42, false⟩ (-1) = .error 1 :=
  c10_fork_failure_exits_one ⟨42, false⟩ (-1) (by decide)

/-- Fixture: configuration with an action command on signal 30
(`-a '30:echo'`). -/
def c9g : Globals :=
  (process_options initGlobals [Opt.action 30 "echo"]).toOption.getD initGlobals

/-- Claim C9: handling a signal S configured as ACTION spawns the action
subprocess; the fork inside `do_action` binds a local `child_pid`, so on the
parent path the supervisor state — in particular the recorded direct child
PID — is unchanged, and forwarding a later plain signal T still targets the
original direct child (or its group). -/
theorem c9_do_action_preserves_child_pid (g : Globals) (st : SupState)
    (fork_result S T : Int) (hf : 0 ≤ fork_result)
    (hS1 : 1 ≤ S) (hS2 : S ≤ MAXSIG) (hSa : g.signal_rewrite S.toNat = -2)
    (hT1 : 1 ≤ T) (hT2 : T ≤ MAXSIG) (hTu : g.signal_rewrite T.toNat = -1) :
    forward_signal g st.child_pid S = [Effect.spawnAction S] ∧
    do_action st fork_result = .ok st ∧
    forward_signal g st.child_pid T
      = [Effect.kill (if g.use_setsid then -st.child_pid else st.child_pid) T] := by
  refine ⟨?_, ?_, ?_⟩
  · unfold forward_signal translate_signal
    have hrange : ¬(S ≤ 0 ∨ S > MAXSIG) := by
      unfold MAXSIG at hS2 ⊢
      omega
    rw [if_neg hrange]
    simp [hSa]
  · simp only [do_action]
    rw [if_neg (by omega)]
  · unfold forward_signal translate_signal
    have hrange : ¬(T ≤ 0 ∨ T > MAXSIG) := by
      unfold MAXSIG at hT2 ⊢
      omega
    rw [if_neg hrange]
    have hT2' : T ≠ -2 := by omega
    have hT1' : T ≠ -1 := by omega
    simp [hTu, hT2', hT1']

/-- Witness for claim C9: with `-a '30:echo'`, receiving signal 30 spawns the
action, `do_action` with a successful fork (PID 100) leaves the state with
child 42 intact, and a later signal 10 is still killed into child 42's
group. -/
theorem c9_do_action_preserves_child_pid_witness :
    forward_signal c9g 42 30 = [Effect.spawnAction 30] ∧
    do_action ⟨42, false⟩ 100 = .ok ⟨42, false⟩ ∧
    forward_signal c9g 42 10
      = [Effect.kill (if c9g.use_setsid then -(42 : Int) else 42) 10] :=
  c9_do_action_preserves_child_pid c9g ⟨42, false⟩ 100 30 10 (by decide)
    (by decide) (by decide) (by decide) (by decide) (by decide) (by decide)

/-- The environment overrides do not touch the rewrite table. -/
theorem applyEnv_signal_rewrite (g : Globals) (a b : Bool) :
    (applyEnv g a b).signal_rewrite = g.signal_rewrite := by
  unfold applyEnv
  cases a <;> cases b <;> rfl

/-- The environment overrides do not touch the action table. -/
theorem applyEnv_signal_action (g : Globals) (a b : Bool) :
    (applyEnv g a b).signal_action = g.signal_action := by
  unfold applyEnv
  cases a <;> cases b <;> rfl

/-- The SIGSTOP defaulting step changes exactly the targeted slot, and only
when it was unset. -/
theorem set_sigstop_signal_rewrite (g : Globals) (t : Int) (i : Nat) :
    (set_rewrite_to_sigstop_if_not_defined g t).signal_rewrite i
      = if g.signal_rewrite t.toNat = -1 ∧ i = t.toNat then SIGSTOP
        else g.signal_rewrite i := by
  unfold set_rewrite_to_sigstop_if_not_defined upd
  by_cases h : g.signal_rewrite t.toNat = -1
  · rw [if_pos h]
    by_cases hi : i = t.toNat
    · simp [h, hi]
    · simp [h, hi]
  · rw [if_neg h]
    simp [h]

/-- The SIGSTOP defaulting step does not touch `use_setsid`. -/
theorem set_sigstop_use_setsid (g : Globals) (t : Int) :
    (set_rewrite_to_sigstop_if_not_defined g t).use_setsid = g.use_setsid := by
  unfold set_rewrite_to_sigstop_if_not_defined
  split <;> rfl

/-- The SIGSTOP defaulting step does not touch the action table. -/
theorem set_sigstop_signal_action (g : Globals) (t : Int) :
    (set_rewrite_to_sigstop_if_not_defined g t).signal_action = g.signal_action := by
  unfold set_rewrite_to_sigstop_if_not_defined
  split <;> rfl

/-- The defaults step does not touch `use_setsid`. -/
theorem applyDefaults_use_setsid (g : Globals) :
    (applyDefaults g).use_setsid = g.use_setsid := by
  unfold applyDefaults
  split
  · rw [set_sigstop_use_setsid, set_sigstop_use_setsid, set_sigstop_use_setsid]
  · rfl

/-- Inversion for a successful `parse_command`: the result is the option-loop
result with environment overrides and SIGSTOP defaults applied. -/
theorem parse_command_ok (opts : List Opt) (de sz : Bool) (gf : Globals)
    (h : parse_command opts de sz true = .ok gf) :
    ∀ g, process_options initGlobals opts = .ok g →
      gf = applyDefaults (applyEnv g de sz) := by
  intro g hg
  unfold parse_command at h
  rw [hg] at h
  simp at h
  exact h.symm

/-- Numeral normalisation for the SIGTSTP table index. -/
theorem toNat_tstp : (20 : Int).toNat = 20 := rfl

/-- Numeral normalisation for the SIGTTIN table index. -/
theorem toNat_ttin : (21 : Int).toNat = 21 := rfl

/-- Numeral normalisation for the SIGTTOU table index. -/
theorem toNat_ttou : (22 : Int).toNat = 22 := rfl

/-- Core of claim C5: in setsid mode the defaults step sets a TTY stop
signal's rewrite slot to SIGSTOP exactly when it is still unset, and leaves it
alone otherwise. -/
theorem applyDefaults_rewrite_tty (G : Globals) (hset : G.use_setsid = true)
    (s : Int) (hmem : s = SIGTSTP ∨ s = SIGTTOU ∨ s = SIGTTIN) :
    (G.signal_rewrite s.toNat = -1 →
      (applyDefaults G).signal_rewrite s.toNat = SIGSTOP) ∧
    (G.signal_rewrite s.toNat ≠ -1 →
      (applyDefaults G).signal_rewrite s.toNat = G.signal_rewrite s.toNat) := by
  unfold applyDefaults
  rw [if_pos hset]
  rcases hmem with h | h | h <;> subst h <;>
    constructor <;> intro hv <;>
      simp only [SIGTSTP, SIGTTOU, SIGTTIN, SIGSTOP, toNat_tstp, toNat_ttin,
        toNat_ttou] at hv ⊢ <;>
        simp [set_sigstop_signal_rewrite, SIGTSTP, SIGTTOU, SIGTTIN, SIGSTOP,
          toNat_tstp, toNat_ttin, toNat_ttou, hv]

/-- Claim C5: after `parse_command`, if setsid mode is on then each of
SIGTSTP, SIGTTOU, SIGTTIN whose rewrite slot was still unset after option
processing equals SIGSTOP, and slots the operator had set are unchanged. -/
theorem c5_sigstop_defaults (opts : List Opt) (de sz : Bool) (g gf : Globals)
    (hp : process_options initGlobals opts = .ok g)
    (hc : parse_command opts de sz true = .ok gf)
    (hs : gf.use_setsid = true)
    (s : Int) (hmem : s = SIGTSTP ∨ s = SIGTTOU ∨ s = SIGTTIN) :
    (g.signal_rewrite s.toNat = -1 → gf.signal_rewrite s.toNat = SIGSTOP) ∧
    (g.signal_rewrite s.toNat ≠ -1 →
      gf.signal_rewrite s.toNat = g.signal_rewrite s.toNat) := by
  have hgf : gf = applyDefaults (applyEnv g de sz) := parse_command_ok opts de sz gf hc g hp
  subst hgf
  have hset : (applyEnv g de sz).use_setsid = true := by
    rwa [applyDefaults_use_setsid] at hs
  have h := applyDefaults_rewrite_tty (applyEnv g de sz) hset s hmem
  rwa [applyEnv_signal_rewrite] at h

/-- Fixture: the configuration produced by a bare command line (no options,
no environment overrides). -/
def c5g : Globals :=
  (parse_command [] false false true).toOption.getD initGlobals

/-- Witness for claim C5: with no options, SIGTSTP's slot is unset after
option processing and ends up SIGSTOP after parsing. -/
theorem c5_sigstop_defaults_witness :
    initGlobals.signal_rewrite SIGTSTP.toNat = -1 ∧
    c5g.use_setsid = true ∧
    c5g.signal_rewrite SIGTSTP.toNat = SIGSTOP := by
  refine ⟨by decide, by decide, ?_⟩
  exact (c5_sigstop_defaults [] false false initGlobals c5g rfl rfl (by decide)
    SIGTSTP (Or.inl rfl)).1 (by decide)

/-- Characterisation of a valid bulk rewrite `-r 0:R`: every slot 0..64
becomes R. -/
theorem parse_rewrite_bulk (g : Globals) (R : Int) (hR : 0 ≤ R ∧ R ≤ 64) :
    parse_rewrite_signum g 0 R
      = .ok { g with signal_rewrite := fun i => if i ≤ 64 then R else g.signal_rewrite i } := by
  unfold parse_rewrite_signum MAXSIG
  rw [if_pos ⟨⟨by omega, by omega⟩, hR⟩, if_pos rfl]

/-- Characterisation of a valid single rewrite `-r S:R` with S nonzero: only
slot S changes. -/
theorem parse_rewrite_single (g : Globals) (s r : Int)
    (hs : 1 ≤ s ∧ s ≤ 64) (hr : 0 ≤ r ∧ r ≤ 64) :
    parse_rewrite_signum g s r
      = .ok { g with signal_rewrite := upd g.signal_rewrite s.toNat r } := by
  unfold parse_rewrite_signum MAXSIG
  rw [if_pos ⟨⟨by omega, hs.2⟩, hr⟩, if_neg (by omega)]

/-- The option loop over valid single rewrites computes, slot by slot on
0..64, the same table as naive pointwise overwriting of any table that agrees
with the starting state. -/
theorem process_options_rewrite_agree :
    ∀ (singles : List (Int × Int)) (g : Globals) (t : Nat → Int),
      (∀ p ∈ singles, (1 ≤ p.1 ∧ p.1 ≤ 64) ∧ (0 ≤ p.2 ∧ p.2 ≤ 64)) →
      (∀ i ≤ 64, g.signal_rewrite i = t i) →
      ∀ i ≤ 64,
        (process_options g (singles.map fun p => Opt.rewrite p.1 p.2)).toOption.map
            (fun g2 => g2.signal_rewrite i)
          = some (singles.foldl (fun t2 p => upd t2 p.1.toNat p.2) t i) := by
  intro singles
  induction singles with
  | nil =>
    intro g t _ hagree i hi
    simp only [List.map_nil, process_options, List.foldl_nil]
    exact congrArg some (hagree i hi)
  | cons p rest ih =>
    intro g t hvalid hagree i hi
    obtain ⟨s, r⟩ := p
    have hv := hvalid (s, r) (List.mem_cons_self _ _)
    simp only [List.map_cons, List.foldl_cons, process_options, applyOpt]
    rw [parse_rewrite_single g s r hv.1 hv.2]
    refine ih _ _ (fun q hq => hvalid q (List.mem_cons_of_mem _ hq)) ?_ i hi
    intro j hj
    simp only [upd]
    by_cases hji : j = s.toNat
    · simp [hji]
    · simp [hji, hagree j hj]

/-- Claim C6: applying `-r 0:R` and then any sequence of valid single
rewrites yields, on every slot 0..64, the table described by the spec's words
(`specRewriteTable`): initialise every slot with R, then overwrite at each S
with the corresponding replacement, later pairs overriding earlier ones. -/
theorem c6_bulk_then_singles_matches_spec_table (R : Int)
    (singles : List (Int × Int)) (hR : 0 ≤ R ∧ R ≤ 64)
    (hs : ∀ p ∈ singles, (1 ≤ p.1 ∧ p.1 ≤ 64) ∧ (0 ≤ p.2 ∧ p.2 ≤ 64)) :
    ∀ i ≤ 64,
      (process_options initGlobals
          (Opt.rewrite 0 R :: singles.map fun p => Opt.rewrite p.1 p.2)).toOption.map
          (fun g => g.signal_rewrite i)
        = some (specRewriteTable R singles i) := by
  intro i hi
  simp only [process_options, applyOpt]
  rw [parse_rewrite_bulk initGlobals R hR]
  unfold specRewriteTable
  refine process_options_rewrite_agree singles _ _ hs ?_ i hi
  intro j hj
  simp [hj]

/-- Witness for claim C6: `-r 0:9 -r 15:2 -r 15:3` leaves slot 15 at 3 — the
later single rewrite overrides the earlier one — matching the spec table. -/
theorem c6_bulk_then_singles_matches_spec_table_witness :
    (process_options initGlobals
        [Opt.rewrite 0 9, Opt.rewrite 15 2, Opt.rewrite 15 3]).toOption.map
        (fun g => g.signal_rewrite 15)
      = some (specRewriteTable 9 [(15, 2), (15, 3)] 15) ∧
    specRewriteTable 9 [(15, 2), (15, 3)] 15 = 3 := by
  constructor
  · have h := c6_bulk_then_singles_matches_spec_table 9 [(15, 2), (15, 3)]
      ⟨by decide, by decide⟩ (by decide) 15 (by decide)
    simpa using h
  · decide

/-- Characterisation of a valid action option: the command lands in the
action table and -2 (ACTION) in the rewrite slot. -/
theorem parse_action_ok (g : Globals) (s : Int) (cmd : String)
    (hs : 0 ≤ s ∧ s ≤ 64) :
    parse_action g s cmd
      = .ok { g with
              signal_action := upd g.signal_action s.toNat cmd,
              signal_rewrite := upd g.signal_rewrite s.toNat (-2) } := by
  unfold parse_action MAXSIG
  rw [if_pos hs]

/-- An invalid rewrite option terminates the process (exit 1). -/
theorem parse_rewrite_fail (g : Globals) (s r : Int)
    (h : ¬((0 ≤ s ∧ s ≤ 64) ∧ (0 ≤ r ∧ r ≤ 64))) :
    parse_rewrite_signum g s r = .error 1 := by
  unfold parse_rewrite_signum MAXSIG
  rw [if_neg h]

/-- An invalid action option terminates the process (exit 1). -/
theorem parse_action_fail (g : Globals) (s : Int) (cmd : String)
    (h : ¬(0 ≤ s ∧ s ≤ 64)) :
    parse_action g s cmd = .error 1 := by
  unfold parse_action MAXSIG
  rw [if_neg h]

/-- One option application preserves the (amended) table invariant "an ACTION
rewrite slot has a non-empty action command", provided the option's own action
command, if any, is non-empty. -/
theorem applyOpt_action_invariant (g g' : Globals) (o : Opt)
    (ho : actionNonempty o = true)
    (hinv : ∀ S : Nat, g.signal_rewrite S = -2 → g.signal_action S ≠ "")
    (h : applyOpt g o = .ok g') :
    ∀ S : Nat, g'.signal_rewrite S = -2 → g'.signal_action S ≠ "" := by
  cases o with
  | rewrite s r =>
    by_cases hc : (0 ≤ s ∧ s ≤ 64) ∧ (0 ≤ r ∧ r ≤ 64)
    · by_cases hs0 : s = 0
      · subst hs0
        rw [show applyOpt g (Opt.rewrite 0 r) = parse_rewrite_signum g 0 r from rfl,
          parse_rewrite_bulk g r hc.2] at h
        cases h
        intro S hS
        simp only at hS
        by_cases hle : S ≤ 64
        · rw [if_pos hle] at hS
          omega
        · rw [if_neg hle] at hS
          exact hinv S hS
      · rw [show applyOpt g (Opt.rewrite s r) = parse_rewrite_signum g s r from rfl,
          parse_rewrite_single g s r ⟨by omega, hc.1.2⟩ hc.2] at h
        cases h
        intro S hS
        simp only [upd] at hS
        by_cases hSi : S = s.toNat
        · rw [if_pos hSi] at hS
          omega
        · rw [if_neg hSi] at hS
          exact hinv S hS
    · rw [show applyOpt g (Opt.rewrite s r) = parse_rewrite_signum g s r from rfl,
        parse_rewrite_fail g s r hc] at h
      exact absurd h (by simp)
  | action s cmd =>
    have hcmd : cmd ≠ "" := by
      simpa [actionNonempty] using ho
    by_cases hc : 0 ≤ s ∧ s ≤ 64
    · rw [show applyOpt g (Opt.action s cmd) = parse_action g s cmd from rfl,
        parse_action_ok g s cmd hc] at h
      cases h
      intro S hS
      simp only [upd] at hS ⊢
      by_cases hSi : S = s.toNat
      · rw [if_pos hSi]
        exact hcmd
      · rw [if_neg hSi] at hS ⊢
        exact hinv S hS
    · rw [show applyOpt g (Opt.action s cmd) = parse_action g s cmd from rfl,
        parse_action_fail g s cmd hc] at h
      exact absurd h (by simp)
  | singleChild =>
    cases h
    exact hinv
  | surviveBereaving =>
    cases h
    exact hinv
  | verbose =>
    cases h
    exact hinv

/-- The whole option loop preserves the table invariant. -/
theorem process_options_action_invariant :
    ∀ (opts : List Opt) (g g' : Globals),
      (∀ o ∈ opts, actionNonempty o = true) →
      (∀ S : Nat, g.signal_rewrite S = -2 → g.signal_action S ≠ "") →
      process_options g opts = .ok g' →
      ∀ S : Nat, g'.signal_rewrite S = -2 → g'.signal_action S ≠ "" := by
  intro opts
  induction opts with
  | nil =>
    intro g g' _ hinv h
    cases h
    exact hinv
  | cons o rest ih =>
    intro g g' hne hinv h
    simp only [process_options] at h
    cases hap : applyOpt g o with
    | error e =>
      rw [hap] at h
      exact absurd h (by simp)
    | ok g1 =>
      rw [hap] at h
      exact ih g1 g' (fun o' ho' => hne o' (List.mem_cons_of_mem _ ho'))
        (applyOpt_action_invariant g g1 o (hne o (List.mem_cons_self _ _)) hinv hap) h

/-- The SIGSTOP defaulting step preserves the table invariant. -/
theorem set_sigstop_action_invariant (g : Globals) (t : Int)
    (hinv : ∀ S : Nat, g.signal_rewrite S = -2 → g.signal_action S ≠ "") :
    ∀ S : Nat, (set_rewrite_to_sigstop_if_not_defined g t).signal_rewrite S = -2 →
      (set_rewrite_to_sigstop_if_not_defined g t).signal_action S ≠ "" := by
  intro S hS
  rw [set_sigstop_signal_rewrite] at hS
  rw [set_sigstop_signal_action]
  by_cases hcond : g.signal_rewrite t.toNat = -1 ∧ S = t.toNat
  · rw [if_pos hcond] at hS
    exact absurd hS (by decide)
  · rw [if_neg hcond] at hS
    exact hinv S hS

/-- The defaults step preserves the table invariant. -/
theorem applyDefaults_action_invariant (g : Globals)
    (hinv : ∀ S : Nat, g.signal_rewrite S = -2 → g.signal_action S ≠ "") :
    ∀ S : Nat, (applyDefaults g).signal_rewrite S = -2 →
      (applyDefaults g).signal_action S ≠ "" := by
  unfold applyDefaults
  split
  · exact set_sigstop_action_invariant _ _
      (set_sigstop_action_invariant _ _ (set_sigstop_action_invariant _ _ hinv))
  · exact hinv

/-- Claim C7, amended: after a successful `parse_command` in which every
action option carried a non-empty command, every slot S in 1..=MAXSIG with
`rewrite[S] = ACTION` has a non-empty action command.  (The unamended
biconditional fails: `-a S:` stores an empty command, and a rewrite after an
action leaves a stale non-empty action entry.) -/
theorem c7_action_slot_nonempty (opts : List Opt) (de sz : Bool)
    (gf : Globals) (S : Nat)
    (hne : ∀ o ∈ opts, actionNonempty o = true)
    (hok : parse_command opts de sz true = .ok gf)
    (hS1 : 1 ≤ S) (hS2 : S ≤ 64)
    (hact : gf.signal_rewrite S = -2) :
    gf.signal_action S ≠ "" := by
  cases hp : process_options initGlobals opts with
  | error e =>
    unfold parse_command at hok
    rw [hp] at hok
    exact absurd hok (by simp)
  | ok g =>
    have hgf : gf = applyDefaults (applyEnv g de sz) := parse_command_ok opts de sz gf hok g hp
    subst hgf
    have hinv0 : ∀ T : Nat, initGlobals.signal_rewrite T = -2 →
        initGlobals.signal_action T ≠ "" := by
      intro T hT
      simp [initGlobals] at hT
    have hinvg := process_options_action_invariant opts initGlobals g hne hinv0 hp
    have hinve : ∀ T : Nat, (applyEnv g de sz).signal_rewrite T = -2 →
        (applyEnv g de sz).signal_action T ≠ "" := by
      intro T hT
      rw [applyEnv_signal_action]
      exact hinvg T (by rwa [applyEnv_signal_rewrite] at hT)
    exact applyDefaults_action_invariant _ hinve S hact

/-- Fixture: configuration parsed from a single well-formed action option
`-a 5:x`. -/
def c7wg : Globals :=
  (parse_command [Opt.action 5 "x"] false false true).toOption.getD initGlobals

/-- Witness for the amended claim C7: after `-a 5:x`, slot 5 is ACTION and its
action command is non-empty. -/
theorem c7_action_slot_nonempty_witness :
    c7wg.signal_rewrite 5 = -2 ∧ c7wg.signal_action 5 ≠ "" := by
  refine ⟨by decide, ?_⟩
  exact c7_action_slot_nonempty [Opt.action 5 "x"] false false c7wg 5
    (by decide) rfl (by decide) (by decide) (by decide)
